import Mathlib

/-! Verification of `src/tkinter/canvasui.py` against its natural-language
specification.  Coordinates are modelled as exact rationals (`ℚ`); numpy
float operations (`np.round`, `np.floor`, `np.sign`, elementwise
arithmetic) are embedded as the corresponding exact operations on `ℚ`.
-/

namespace CanvasUI

/-- Embedding of `np.sign` on a rational. -/
def npSign (q : ℚ) : ℚ := if 0 < q then 1 else if q < 0 then -1 else 0

/-- Embedding of `np.round` (round half to even) on a rational, as an integer. -/
def npRoundZ (q : ℚ) : ℤ :=
  if q - (⌊q⌋ : ℚ) < 1 / 2 then ⌊q⌋
  else if 1 / 2 < q - (⌊q⌋ : ℚ) then ⌊q⌋ + 1
  else if ⌊q⌋ % 2 = 0 then ⌊q⌋ else ⌊q⌋ + 1

/-- Python `np.round` staying in `ℚ`. -/
def npRound (q : ℚ) : ℚ := (npRoundZ q : ℚ)

/-- Python `np.round` applied elementwise to an (x, y) pair. -/
def npRound2 (p : ℚ × ℚ) : ℚ × ℚ := (npRound p.1, npRound p.2)

/-- Embedding of `get_closest_point(xy1, xy2)` from canvasui.py:
`swh = xy2 - xy1`, `whmin = np.min(np.abs(swh))`, result `xy1 + np.sign(swh) * whmin`. -/
def get_closest_point (xy1 xy2 : ℚ × ℚ) : ℚ × ℚ :=
  let sw := xy2.1 - xy1.1
  let sh := xy2.2 - xy1.2
  let whmin := min (|sw|) (|sh|)
  (xy1.1 + npSign sw * whmin, xy1.2 + npSign sh * whmin)

/-- A numpy scalar-or-2-vector argument, as passed for `shift` and `scale`
in `shiftscale(xywh_or_xy, shift, scale)`. -/
inductive SS where
  | scalar (v : ℚ)
  | vec (v : ℚ × ℚ)
deriving DecidableEq

/-- The broadcast value of a `scale` argument over one (x, y) row:
a scalar broadcasts to both components, a 2-vector is used as is. -/
def SS.bcast : SS → ℚ × ℚ
  | .scalar v => (v, v)
  | .vec v => v

/-- Embedding of `shiftscale` on a single point `[x, y]`: the reshape to
`(-1, 2)` yields one row, no zero row is appended to an array shift, and the
result is `(p + shift) * scale` elementwise.  (The `None` passthrough guard of
the Python function is not modelled: inputs here are always defined.) -/
def shiftscalePt (p : ℚ × ℚ) (shift scale : SS) : ℚ × ℚ :=
  let sh := shift.bcast
  let sc := scale.bcast
  ((p.1 + sh.1) * sc.1, (p.2 + sh.2) * sc.2)

/-- A rectangle in the `(x, y, w, h)` flat encoding of canvasui.py. -/
structure Xywh where
  x : ℚ
  y : ℚ
  w : ℚ
  h : ℚ
deriving DecidableEq

/-- Embedding of `shiftscale` on a 4-element `[x, y, w, h]` input.  In
`process_nested_locs` the rectangle-decomposition branch is guarded by
`len(xy) > 999` and is therefore never taken for a 4-element input, so the
input reaches the inner function directly: it is reshaped to two rows
`[x, y]` and `[w, h]`; an array `shift` has a zero row appended (so it only
shifts the `[x, y]` row), while a scalar `shift` broadcasts to all four
entries, including `[w, h]`; `scale` broadcasts to both rows. -/
def shiftscaleRect (r : Xywh) (shift scale : SS) : Xywh :=
  let sh0 := shift.bcast
  let sh1 := match shift with
    | .scalar v => (v, v)
    | .vec _ => ((0 : ℚ), (0 : ℚ))
  let sc := scale.bcast
  ⟨(r.x + sh0.1) * sc.1, (r.y + sh0.2) * sc.2,
   (r.w + sh1.1) * sc.1, (r.h + sh1.2) * sc.2⟩

/-- Modelled from the spec: the size-aware transform of a rectangle obtained
by decomposing `(x, y, w, h)` into its two corner points `(x, y)` and
`(x + w, y + h)`, applying `shiftscale` to each corner, and re-encoding the
results as `(x, y, w, h)`. -/
def shiftscaleRectCorners (r : Xywh) (shift scale : SS) : Xywh :=
  let c1 := shiftscalePt (r.x, r.y) shift scale
  let c2 := shiftscalePt (r.x + r.w, r.y + r.h) shift scale
  ⟨c1.1, c1.2, c2.1 - c1.1, c2.2 - c1.2⟩

/-- Embedding of `RectHelper` state: optional center `xy`, optional size `wh`
(`None` in Python marks the attribute as pending/unset). -/
structure RectHelper where
  xy : Option (ℚ × ℚ)
  wh : Option (ℚ × ℚ)
deriving DecidableEq

/-- Python `RectHelper.setByPoints(xy1, xy2)`: `lt`/`rb` are the elementwise
min/max of the two points; center `(lt + rb) / 2`, size `rb - lt`. -/
def RectHelper.setByPoints (r : RectHelper) (xy1 xy2 : ℚ × ℚ) : RectHelper :=
  let lt := (min xy1.1 xy2.1, min xy1.2 xy2.2)
  let rb := (max xy1.1 xy2.1, max xy1.2 xy2.2)
  { r with xy := some ((lt.1 + rb.1) / 2, (lt.2 + rb.2) / 2),
           wh := some (rb.1 - lt.1, rb.2 - lt.2) }

/-- Python `RectHelper.setByCtSide(ct, xy)`: size `|xy - ct| * 2` elementwise;
the center is left unchanged. -/
def RectHelper.setByCtSide (r : RectHelper) (ct xy : ℚ × ℚ) : RectHelper :=
  { r with wh := some ((|xy.1 - ct.1|) * 2, (|xy.2 - ct.2|) * 2) }

/-- Python `RectHelper.setByRefer(referRect)`: copy both attributes from another rect. -/
def RectHelper.setByRefer (_r refer : RectHelper) : RectHelper :=
  ⟨refer.xy, refer.wh⟩

/-- Python `RectHelper.setByAuto(xy1, xy2)`: the policy table on which of `xy`/`wh`
are currently unset. -/
def RectHelper.setByAuto (r : RectHelper) (xy1 xy2 : ℚ × ℚ) : RectHelper :=
  match r.xy, r.wh with
  | none, none => r.setByPoints xy1 xy2
  | none, some _ => { r with xy := some xy2 }
  | some c, none => r.setByCtSide c xy2
  | some _, some _ => r

/-- Python `RectHelper.isValid()`: both attributes set. -/
def RectHelper.isValid (r : RectHelper) : Bool :=
  r.xy.isSome && r.wh.isSome

/-- Gesture phase constants `Motion.MOTION_ST / MOTION_MV / MOTION_ED`. -/
inductive MPhase where
  | st
  | mv
  | ed
deriving DecidableEq

/-- Python `RectModifier`: a `RectHelper` (the inherited `xy`/`wh`, here field `cur`)
plus the `lastDecide` baseline rectangle and the `mode` bitmask
(`MODE_XY = 1`, `MODE_WH = 2`, `MODE_ALL = 3`). -/
structure RectModifier where
  cur : RectHelper
  lastDecide : RectHelper
  mode : Nat
deriving DecidableEq

/-- Python `RectModifier.__init__`: unset rect, unset baseline, mode `MODE_XY`. -/
def rectModifierInit : RectModifier := ⟨⟨none, none⟩, ⟨none, none⟩, 1⟩

/-- Python `RectModifier.reload(st, ed, mode)`: restore `lastDecide`, clear the
attribute(s) selected by the mode bitmask, re-derive via `setByAuto`, and on
phase END commit the current rect as the new `lastDecide`. -/
def RectModifier.reload (m : RectModifier) (stp edp : ℚ × ℚ) (phase : MPhase) : RectModifier :=
  let cur := m.cur.setByRefer m.lastDecide
  let cur := if m.mode &&& 1 ≠ 0 then { cur with xy := none } else cur
  let cur := if m.mode &&& 2 ≠ 0 then { cur with wh := none } else cur
  let cur := cur.setByAuto stp edp
  { m with cur := cur,
           lastDecide := if phase = MPhase.ed then m.lastDecide.setByRefer cur else m.lastDecide }

/-- A recorded gesture-callback invocation `(stpos, edpos, mode)`. -/
abbrev Cb := (ℚ × ℚ) × (ℚ × ℚ) × MPhase

/-- Python `Motion` state: normalized start position `stpos`, raw start position
`stpos_raw`, the `lack_aspect_ratio` flag (here `lackAspect`), and the `bwheq`
attribute that `InteractiveShapeCanvas.setWhFix` creates (modelled as an
`Option` since `__init__` does not define it; no code ever reads it). -/
structure MotionState where
  stpos : Option (ℚ × ℚ)
  stposRaw : Option (ℚ × ℚ)
  lackAspect : Bool
  bwheq : Option Bool
deriving DecidableEq

/-- Python `Motion.__init__`: no start position, clamping flag off, no `bwheq`. -/
def motionInit : MotionState := ⟨none, none, false, none⟩

/-- Python `Motion.runCallbk(edpos, mode)` with callback attached: returns the
callback invocation, or `none` when `stpos` is unset.  `norm` is the injected
`posNormalizer` (identity when absent).  When `lackAspect` is true, the end
point is first replaced by `get_closest_point(stpos_raw, edpos)`; in every
state reachable from `motionInit`, `stposRaw` is set whenever `stpos` is, so
the `none` fallback branch is inert (Python would raise there). -/
def runCallbk (norm : ℚ × ℚ → ℚ × ℚ) (s : MotionState) (edpos : ℚ × ℚ)
    (mode : MPhase) : Option Cb :=
  match s.stpos with
  | none => none
  | some stp =>
    let ed := if s.lackAspect then
        match s.stposRaw with
        | some raw => get_closest_point raw edpos
        | none => edpos
      else edpos
    some (stp, norm ed, mode)

/-- Python `Motion.start(e)`: record raw and normalized start position, then run the
callback with phase START on the raw position. -/
def motionStart (norm : ℚ × ℚ → ℚ × ℚ) (s : MotionState) (e : ℚ × ℚ) :
    MotionState × Option Cb :=
  let s1 := { s with stposRaw := some e, stpos := some (norm e) }
  (s1, runCallbk norm s1 e MPhase.st)

/-- Python `Motion.mov(e)`: run the callback with phase MOVE; no state change. -/
def motionMov (norm : ℚ × ℚ → ℚ × ℚ) (s : MotionState) (e : ℚ × ℚ) :
    MotionState × Option Cb :=
  (s, runCallbk norm s e MPhase.mv)

/-- Python `Motion.end(e)`: run the callback with phase END (on the pre-existing
state), then clear `stpos`. -/
def motionEnd (norm : ℚ × ℚ → ℚ × ℚ) (s : MotionState) (e : ℚ × ℚ) :
    MotionState × Option Cb :=
  ({ s with stpos := none }, runCallbk norm s e MPhase.ed)

/-- Python `InteractiveShapeCanvas.setWhFix(onoff)`: writes `self.mt.bwheq = onoff`
on the Motion object — and nothing else; in particular it does not touch
`lack_aspect_ratio`. -/
def setWhFix (s : MotionState) (onoff : Bool) : MotionState :=
  { s with bwheq := some onoff }

/-- Shape-mode constants of `InteractiveShapeModifier`
(`MODE_POS / MODE_BOX / MODE_LINE`). -/
inductive ShapeMode where
  | pos
  | box
  | line
deriving DecidableEq

/-- Python `InteractiveShapeModifier` state: active mode, the owned `RectModifier`,
and the point list `xys` (Python `None` or a list). -/
structure InteractiveShapeModifier where
  mode : ShapeMode
  rctctl : RectModifier
  xys : Option (List (ℚ × ℚ))
deriving DecidableEq

/-- Python `InteractiveShapeModifier.__init__`. -/
def ismInit : InteractiveShapeModifier := ⟨ShapeMode.pos, rectModifierInit, none⟩

/-- Python `InteractiveShapeModifier.setRect(xywh)`: switch to BOX mode, set (or
clear, on `None`) the rect's center/size from the flat `(x, y, w, h)`, then
copy the current rect into `lastDecide` via `setByRefer`. -/
def InteractiveShapeModifier.setRect (s : InteractiveShapeModifier)
    (xywh : Option Xywh) : InteractiveShapeModifier :=
  let cur : RectHelper := match xywh with
    | some r => ⟨some (r.x, r.y), some (r.w, r.h)⟩
    | none => ⟨none, none⟩
  let rc := { s.rctctl with cur := cur }
  let rc := { rc with lastDecide := rc.lastDecide.setByRefer cur }
  { s with mode := ShapeMode.box, rctctl := rc }

/-- Python `InteractiveShapeModifier.setPos(xy)`. -/
def InteractiveShapeModifier.setPos (s : InteractiveShapeModifier)
    (xy : ℚ × ℚ) : InteractiveShapeModifier :=
  { s with mode := ShapeMode.pos, xys := some [xy] }

/-- Python `InteractiveShapeModifier.setLine(xys)`. -/
def InteractiveShapeModifier.setLine (s : InteractiveShapeModifier)
    (xys : List (ℚ × ℚ)) : InteractiveShapeModifier :=
  { s with mode := ShapeMode.line, xys := some xys }

/-- A value returned by `getPos`: a single point, a point list, or a flat
`(x, y, w, h)` rectangle (center plus size). -/
inductive ShapePos where
  | pt (p : ℚ × ℚ)
  | seg (ps : List (ℚ × ℚ))
  | rect (r : Xywh)
deriving DecidableEq

/-- Python `InteractiveShapeModifier.getPos()`.  In BOX mode the code evaluates
`np.concatenate([self.rctctl.xy, self.rctctl.wh])` unconditionally; when
either attribute is `None`, numpy turns it into a zero-dimensional array and
`np.concatenate` raises `ValueError`, embedded here as `Except.error`.  POINT
mode with `xys = None` would likewise raise on `self.xys[0]`.  LINE mode
returns `xys` as is (possibly `None`). -/
def InteractiveShapeModifier.getPos (s : InteractiveShapeModifier) :
    Except String (Option ShapePos) :=
  match s.mode with
  | ShapeMode.pos =>
    match s.xys with
    | some (p :: _) => Except.ok (some (ShapePos.pt p))
    | some [] => Except.error "IndexError: list index out of range"
    | none => Except.error "TypeError: NoneType object is not subscriptable"
  | ShapeMode.line => Except.ok (s.xys.map fun ps => ShapePos.seg ps)
  | ShapeMode.box =>
    match s.rctctl.cur.xy, s.rctctl.cur.wh with
    | some xy, some wh => Except.ok (some (ShapePos.rect ⟨xy.1, xy.2, wh.1, wh.2⟩))
    | _, _ => Except.error "ValueError: zero-dimensional arrays cannot be concatenated"

/-- Python `InteractiveShapeModifier.setMouse(st, ed, mode)`: dispatch on the active
shape mode. -/
def InteractiveShapeModifier.setMouse (s : InteractiveShapeModifier)
    (stp edp : ℚ × ℚ) (phase : MPhase) : InteractiveShapeModifier :=
  match s.mode with
  | ShapeMode.pos => { s with xys := some [edp] }
  | ShapeMode.line => { s with xys := some [stp, edp] }
  | ShapeMode.box => { s with rctctl := s.rctctl.reload stp edp phase }

/-- The normalizer `InteractiveShapeCanvas` installs into its Motion
(`get_normalized_coord_func`): divide by the client width/height. -/
def normBy (wh : ℚ × ℚ) (p : ℚ × ℚ) : ℚ × ℚ := (p.1 / wh.1, p.2 / wh.2)

/-- The mouse-interaction state of an `InteractiveShapeCanvas`: its Motion
tracker and its shape modifier. -/
structure CanvasState where
  mt : MotionState
  posctl : InteractiveShapeModifier
deriving DecidableEq

/-- Python `InteractiveShapeCanvas.__init__` interaction state. -/
def canvasInit : CanvasState := ⟨motionInit, ismInit⟩

/-- Python `InteractiveShapeCanvas.onMouse`: forward a callback invocation (if any)
to the shape modifier.  Drawing and the selection callback do not change the
modifier state and are not modelled. -/
def applyCb (s : InteractiveShapeModifier) : Option Cb → InteractiveShapeModifier
  | none => s
  | some (stp, edp, ph) => s.setMouse stp edp ph

/-- A toolkit mouse event bound by `Motion.bind`. -/
inductive MouseEvent where
  | press (p : ℚ × ℚ)
  | drag (p : ℚ × ℚ)
  | release (p : ℚ × ℚ)

/-- One toolkit mouse event processed by the canvas: the Motion handler fires
and its callback (if any) reaches `onMouse`.  `wh` is the client size used by
the installed normalizer. -/
def canvasStep (wh : ℚ × ℚ) (c : CanvasState) : MouseEvent → CanvasState
  | MouseEvent.press p =>
    let r := motionStart (normBy wh) c.mt p
    ⟨r.1, applyCb c.posctl r.2⟩
  | MouseEvent.drag p =>
    let r := motionMov (normBy wh) c.mt p
    ⟨r.1, applyCb c.posctl r.2⟩
  | MouseEvent.release p =>
    let r := motionEnd (normBy wh) c.mt p
    ⟨r.1, applyCb c.posctl r.2⟩

/-- A sequence of mouse events processed in order. -/
def canvasRun (wh : ℚ × ℚ) (c : CanvasState) (es : List MouseEvent) : CanvasState :=
  es.foldl (canvasStep wh) c

/-- Python `InteractiveShapeCanvas.setRectMode(rectMode)`: set `posctl.rctctl.mode`. -/
def CanvasState.setRectMode (c : CanvasState) (m : Nat) : CanvasState :=
  { c with posctl := { c.posctl with rctctl := { c.posctl.rctctl with mode := m } } }

/-- Python `ImageFitter` placement data: client (viewport) size `refsz`, fitted-image
top-left `lt` and fitted size `wh` (integers, after `astype(int)` in `toTk`),
and original image size `orgwh`.  These are the values `getSizes()` hands to
every static conversion. -/
structure Fit where
  refsz : ℤ × ℤ
  lt : ℤ × ℤ
  wh : ℤ × ℤ
  orgwh : ℤ × ℤ
deriving DecidableEq

/-- The contain-fit scale `asp = np.min(wh / orgwh)` computed in
`ImageFitter.toTk`. -/
def fitScale (clientsz orgwh : ℤ × ℤ) : ℚ :=
  min ((clientsz.1 : ℚ) / (orgwh.1 : ℚ)) ((clientsz.2 : ℚ) / (orgwh.2 : ℚ))

/-- Python `ImageFitter.toTk`: fitted size `nwh = np.maximum(np.floor(orgwh*asp), 1)`
and centered placement `ltpos = (wh - nwh) // 2` (numpy floor division). -/
def toTk (clientsz orgwh : ℤ × ℤ) : Fit :=
  let asp := fitScale clientsz orgwh
  let nw : ℤ := max ⌊(orgwh.1 : ℚ) * asp⌋ 1
  let nh : ℤ := max ⌊(orgwh.2 : ℚ) * asp⌋ 1
  ⟨clientsz, (Int.fdiv (clientsz.1 - nw) 2, Int.fdiv (clientsz.2 - nh) 2), (nw, nh), orgwh⟩

/-- Python `ImageFitter._getClientPosAt(xy, refsz) = np.round(shiftscale(xy, 0, refsz))`,
on a single point. -/
def getClientPosAt (f : Fit) (xy : ℚ × ℚ) : ℚ × ℚ :=
  npRound2 (shiftscalePt xy (SS.scalar 0) (SS.vec ((f.refsz.1 : ℚ), (f.refsz.2 : ℚ))))

/-- Python `ImageFitter._getImRatioAt`: client position, then
`shiftscale(xy, -imltwh[:2], 1/imltwh[2:])`. -/
def getImRatioAt (f : Fit) (xy : ℚ × ℚ) : ℚ × ℚ :=
  shiftscalePt (getClientPosAt f xy) (SS.vec (-(f.lt.1 : ℚ), -(f.lt.2 : ℚ)))
    (SS.vec (1 / (f.wh.1 : ℚ), 1 / (f.wh.2 : ℚ)))

/-- Python `ImageFitter._getImCvsPosAt`: client position, then
`np.round(shiftscale(xy, -imltwh[:2], 1))`. -/
def getImCvsPosAt (f : Fit) (xy : ℚ × ℚ) : ℚ × ℚ :=
  npRound2 (shiftscalePt (getClientPosAt f xy)
    (SS.vec (-(f.lt.1 : ℚ), -(f.lt.2 : ℚ))) (SS.scalar 1))

/-- Python `ImageFitter._getImOrgPosAt`: client position, then
`np.round(shiftscale(xy, -imltwh[:2], orgwh/imltwh[2:]))`. -/
def getImOrgPosAt (f : Fit) (xy : ℚ × ℚ) : ℚ × ℚ :=
  npRound2 (shiftscalePt (getClientPosAt f xy)
    (SS.vec (-(f.lt.1 : ℚ), -(f.lt.2 : ℚ)))
    (SS.vec ((f.orgwh.1 : ℚ) / (f.wh.1 : ℚ), (f.orgwh.2 : ℚ) / (f.wh.2 : ℚ))))

/-- Python `ImageFitter._getFromClientPos(xy, refsz) = shiftscale(xy, 0, 1/refsz)`. -/
def getFromClientPos (f : Fit) (xy : ℚ × ℚ) : ℚ × ℚ :=
  shiftscalePt xy (SS.scalar 0) (SS.vec (1 / (f.refsz.1 : ℚ), 1 / (f.refsz.2 : ℚ)))

/-- Python `ImageFitter._getFromImCvsPos = shiftscale(xy, imltwh[:2], 1/refsz)`
(method `getFromCvsPos`). -/
def getFromCvsPos (f : Fit) (xy : ℚ × ℚ) : ℚ × ℚ :=
  shiftscalePt xy (SS.vec ((f.lt.1 : ℚ), (f.lt.2 : ℚ)))
    (SS.vec (1 / (f.refsz.1 : ℚ), 1 / (f.refsz.2 : ℚ)))

/-- Python `ImageFitter._getFromImOrgPos =
shiftscale(xy, imltwh[:2]/imltwh[2:]*orgwh, imltwh[2:]/orgwh/refsz)`. -/
def getFromImOrgPos (f : Fit) (xy : ℚ × ℚ) : ℚ × ℚ :=
  shiftscalePt xy
    (SS.vec ((f.lt.1 : ℚ) / (f.wh.1 : ℚ) * (f.orgwh.1 : ℚ),
             (f.lt.2 : ℚ) / (f.wh.2 : ℚ) * (f.orgwh.2 : ℚ)))
    (SS.vec ((f.wh.1 : ℚ) / (f.orgwh.1 : ℚ) / (f.refsz.1 : ℚ),
             (f.wh.2 : ℚ) / (f.orgwh.2 : ℚ) / (f.refsz.2 : ℚ)))

/-- Python `ImageFitter._getFromImRatio = shiftscale(xy, imltwh[:2]/imltwh[2:],
imltwh[2:]/refsz)` (the Lean name adds `Pos` to the source method name). -/
def getFromImRatioPos (f : Fit) (xy : ℚ × ℚ) : ℚ × ℚ :=
  shiftscalePt xy
    (SS.vec ((f.lt.1 : ℚ) / (f.wh.1 : ℚ), (f.lt.2 : ℚ) / (f.wh.2 : ℚ)))
    (SS.vec ((f.wh.1 : ℚ) / (f.refsz.1 : ℚ), (f.wh.2 : ℚ) / (f.refsz.2 : ℚ)))

/-- The placement of a 1000×500 image in a 400×400 viewport (the value of
`toTk (400,400) (1000,500)`), used as a concrete fit. -/
def fitExample : Fit := ⟨(400, 400), (0, 100), (400, 200), (1000, 500)⟩

theorem abs_npSign_mul_min (d e : ℚ) : |npSign d * min (|d|) (|e|)| = min (|d|) (|e|) := by
  have hm : 0 ≤ min (|d|) (|e|) := le_min (abs_nonneg d) (abs_nonneg e)
  unfold npSign
  rcases lt_trichotomy 0 d with h | h | h
  · rw [if_pos h, one_mul, abs_of_nonneg hm]
  · have hd : d = 0 := h.symm
    subst hd
    simp [min_eq_left (abs_nonneg e)]
  · rw [if_neg (not_lt.mpr h.le), if_pos h, neg_one_mul, abs_neg, abs_of_nonneg hm]

/-- C7: `get_closest_point(a, b)` returns the point at per-axis displacement of
magnitude `min(|dx|, |dy|)` from `a` with the sign of each axis of `b - a`
preserved; in particular `get_closest_point((0,0),(10,4)) = (4,4)` and
`get_closest_point((0,0),(-10,4)) = (-4,4)`. -/
theorem get_closest_point_spec :
    (∀ a b : ℚ × ℚ,
      (get_closest_point a b).1 = a.1 + npSign (b.1 - a.1) * min (|b.1 - a.1|) (|b.2 - a.2|) ∧
      (get_closest_point a b).2 = a.2 + npSign (b.2 - a.2) * min (|b.1 - a.1|) (|b.2 - a.2|) ∧
      |(get_closest_point a b).1 - a.1| = min (|b.1 - a.1|) (|b.2 - a.2|) ∧
      |(get_closest_point a b).2 - a.2| = min (|b.1 - a.1|) (|b.2 - a.2|)) ∧
    get_closest_point (0, 0) (10, 4) = (4, 4) ∧
    get_closest_point (0, 0) (-10, 4) = (-4, 4) := by
  refine ⟨fun a b => ⟨rfl, rfl, ?_, ?_⟩, by norm_num [get_closest_point, npSign], by norm_num [get_closest_point, npSign]⟩
  · show |a.1 + npSign (b.1 - a.1) * min (|b.1 - a.1|) (|b.2 - a.2|) - a.1| = _
    rw [add_sub_cancel_left, abs_npSign_mul_min]
  · show |a.2 + npSign (b.2 - a.2) * min (|b.1 - a.1|) (|b.2 - a.2|) - a.2| = _
    rw [add_sub_cancel_left]
    rw [show min (|b.1 - a.1|) (|b.2 - a.2|) = min (|b.2 - a.2|) (|b.1 - a.1|) from min_comm _ _,
      abs_npSign_mul_min]

/-- C4 as stated fails: with the scalar shift 1 (and scale 1), `shiftscale` on
the rectangle (0, 0, 2, 2) shifts the width/height pair as well, giving
(1, 1, 3, 3), while the corner-pair decomposition transform gives
(1, 1, 2, 2). -/
theorem shiftscaleRect_scalar_shift_ne_corners :
    shiftscaleRect ⟨0, 0, 2, 2⟩ (SS.scalar 1) (SS.scalar 1) ≠
      shiftscaleRectCorners ⟨0, 0, 2, 2⟩ (SS.scalar 1) (SS.scalar 1) := by
  simp only [shiftscaleRect, shiftscaleRectCorners, shiftscalePt, SS.bcast,
    ne_eq, Xywh.mk.injEq]
  norm_num

/-- C4 (amended): for every rectangle, `shiftscale` equals the size-aware
corner-pair decomposition transform for every 2-vector shift and for the
scalar shift 0 — the only shift shapes any call site in canvasui.py passes —
with scalar or 2-vector scale. -/
theorem shiftscaleRect_eq_corners (r : Xywh) (sc : SS) :
    (∀ sh : ℚ × ℚ,
      shiftscaleRect r (SS.vec sh) sc = shiftscaleRectCorners r (SS.vec sh) sc) ∧
    shiftscaleRect r (SS.scalar 0) sc = shiftscaleRectCorners r (SS.scalar 0) sc := by
  constructor
  · intro sh
    cases sc <;>
      simp only [shiftscaleRect, shiftscaleRectCorners, shiftscalePt, SS.bcast,
        Xywh.mk.injEq] <;>
      exact ⟨by ring_nf, by ring_nf, by ring_nf, by ring_nf⟩
  · cases sc <;>
      simp only [shiftscaleRect, shiftscaleRectCorners, shiftscalePt, SS.bcast,
        Xywh.mk.injEq] <;>
      exact ⟨by ring_nf, by ring_nf, by ring_nf, by ring_nf⟩

/-- C9: the `setByAuto` policy table.  Both attributes unset: exactly
`setByPoints` (center = midpoint, size = componentwise absolute difference);
only `xy` unset: `xy := p2` with `wh` unchanged; only `wh` unset: size
`2 * |p2 - xy|` with `xy` unchanged; both set: no change. -/
theorem setByAuto_policy (p1 p2 c w : ℚ × ℚ) :
    RectHelper.setByAuto ⟨none, none⟩ p1 p2 = RectHelper.setByPoints ⟨none, none⟩ p1 p2 ∧
    (RectHelper.setByPoints ⟨none, none⟩ p1 p2).xy =
      some ((p1.1 + p2.1) / 2, (p1.2 + p2.2) / 2) ∧
    (RectHelper.setByPoints ⟨none, none⟩ p1 p2).wh =
      some (|p2.1 - p1.1|, |p2.2 - p1.2|) ∧
    RectHelper.setByAuto ⟨none, some w⟩ p1 p2 = ⟨some p2, some w⟩ ∧
    RectHelper.setByAuto ⟨some c, none⟩ p1 p2 =
      ⟨some c, some ((|p2.1 - c.1|) * 2, (|p2.2 - c.2|) * 2)⟩ ∧
    RectHelper.setByAuto ⟨some c, some w⟩ p1 p2 = ⟨some c, some w⟩ := by
  refine ⟨rfl, ?_, ?_, rfl, rfl, rfl⟩
  · simp only [RectHelper.setByPoints, Option.some.injEq, Prod.mk.injEq]
    constructor
    · rw [min_add_max]
    · rw [min_add_max]
  · simp only [RectHelper.setByPoints, Option.some.injEq, Prod.mk.injEq]
    constructor
    · rw [max_sub_min_eq_abs, abs_sub_comm]
    · rw [max_sub_min_eq_abs, abs_sub_comm]

/-- C8: a MOVE or END gesture event with no drag in progress (stored start
position unset) invokes no callback and changes no state, and END always
clears the start position after its callback. -/
theorem motion_noop_without_drag (norm : ℚ × ℚ → ℚ × ℚ) (s : MotionState)
    (e : ℚ × ℚ) (h : s.stpos = none) :
    motionMov norm s e = (s, none) ∧
    motionEnd norm s e = (s, none) ∧
    ∀ s' e', ((motionEnd norm s' e').1).stpos = none := by
  have hrc : ∀ ph, runCallbk norm s e ph = none := by
    intro ph
    unfold runCallbk
    rw [h]
  have hs : { s with stpos := none } = s := by
    cases s
    simp_all
  refine ⟨?_, ?_, fun s' e' => rfl⟩
  · unfold motionMov
    rw [hrc]
  · unfold motionEnd
    rw [hrc, hs]

/-- Witness for C8 at a concrete input: the initial state has no drag in
progress, and a MOVE event there is a no-op. -/
theorem motion_noop_without_drag_witness :
    motionInit.stpos = none ∧
    motionMov id motionInit (3, 4) = (motionInit, none) ∧
    motionEnd id motionInit (3, 4) = (motionInit, none) := by
  have h := motion_noop_without_drag id motionInit (3, 4) rfl
  exact ⟨rfl, h.1, h.2.1⟩

/-- C10: `InteractiveShapeModifier.setRect` synchronizes the `lastDecide`
baseline with the newly set geometry: after `setRect` with a rectangle,
both the current rect and `lastDecide` hold that center and size; after
`setRect(None)`, both are fully unset. -/
theorem setRect_syncs_lastDecide (s : InteractiveShapeModifier) (r : Xywh) :
    (s.setRect (some r)).rctctl.lastDecide = ⟨some (r.x, r.y), some (r.w, r.h)⟩ ∧
    (s.setRect (some r)).rctctl.cur = ⟨some (r.x, r.y), some (r.w, r.h)⟩ ∧
    (s.setRect none).rctctl.lastDecide = ⟨none, none⟩ ∧
    (s.setRect none).rctctl.cur = ⟨none, none⟩ :=
  ⟨rfl, rfl, rfl, rfl⟩

/-- C2 fails on the code: after `setRect(None)` the box is undefined, and
`getPos()` evaluates `np.concatenate([None, None])`, which raises
`ValueError` instead of returning null. -/
theorem getPos_raises_after_setRect_none :
    (ismInit.setRect none).getPos =
      Except.error "ValueError: zero-dimensional arrays cannot be concatenated" :=
  rfl

/-- C1 fails on the code: `setWhFix` writes only the attribute `bwheq`, which
no code reads, and leaves `lack_aspect_ratio` unchanged (false); hence after
`setWhFix(True)`, a drag from (0, 0) still reports the MOVE end point (10, 4)
unclamped, although `get_closest_point((0,0),(10,4)) = (4,4) ≠ (10,4)`. -/
theorem setWhFix_does_not_enable_clamping :
    (∀ (s : MotionState) (b : Bool),
      (setWhFix s b).lackAspect = s.lackAspect ∧
      (setWhFix s b).stpos = s.stpos ∧
      (setWhFix s b).stposRaw = s.stposRaw) ∧
    (motionMov id (motionStart id (setWhFix motionInit true) (0, 0)).1 (10, 4)).2 =
      some ((0, 0), (10, 4), MPhase.mv) ∧
    get_closest_point (0, 0) (10, 4) ≠ (10, 4) := by
  refine ⟨fun s b => ⟨rfl, rfl, rfl⟩, rfl, ?_⟩
  norm_num [get_closest_point, npSign]

/-- C6: in BOX mode with rect mode `MODE_ALL` on a 400×400 viewport, a press
at viewport pixel (200, 150) followed by a release at (300, 200) yields a box
with normalized center ((200+300)/2/400, (150+200)/2/400) and normalized
size (100/400, 50/400). -/
theorem box_drag_concrete :
    ((canvasRun (400, 400)
        ((CanvasState.mk motionInit (ismInit.setRect none)).setRectMode 3)
        [MouseEvent.press (200, 150), MouseEvent.release (300, 200)]).posctl.rctctl.cur.xy =
      some ((200 + 300) / 2 / 400, (150 + 200) / 2 / 400)) ∧
    ((canvasRun (400, 400)
        ((CanvasState.mk motionInit (ismInit.setRect none)).setRectMode 3)
        [MouseEvent.press (200, 150), MouseEvent.release (300, 200)]).posctl.rctctl.cur.wh =
      some (100 / 400, 50 / 400)) := by
  norm_num [canvasRun, canvasStep, motionStart, motionEnd, runCallbk, applyCb,
    ismInit, motionInit, rectModifierInit, normBy, List.foldl,
    InteractiveShapeModifier.setRect, InteractiveShapeModifier.setMouse,
    CanvasState.setRectMode, RectModifier.reload, RectHelper.setByAuto,
    RectHelper.setByPoints, RectHelper.setByRefer, RectHelper.setByCtSide,
    min_def, max_def,
    show (3 : ℕ) &&& 1 = 1 from rfl, show (3 : ℕ) &&& 2 = 2 from rfl,
    show MPhase.st ≠ MPhase.ed from by decide]

/-- C5: `toTk` clamps the fitted size to at least 1 per axis and centers the
fitted image; for a 1000×500 image in a 400×400 viewport the contain-fit
scale is 2/5 (= 0.4), the fitted size (400, 200), and the placement offset
(0, 100). -/
theorem toTk_fit_spec :
    (∀ c o : ℤ × ℤ,
      1 ≤ (toTk c o).wh.1 ∧ 1 ≤ (toTk c o).wh.2 ∧
      (toTk c o).refsz = c ∧ (toTk c o).orgwh = o ∧
      (toTk c o).wh.1 = max ⌊(o.1 : ℚ) * fitScale c o⌋ 1 ∧
      (toTk c o).wh.2 = max ⌊(o.2 : ℚ) * fitScale c o⌋ 1 ∧
      (toTk c o).lt.1 = Int.fdiv (c.1 - (toTk c o).wh.1) 2 ∧
      (toTk c o).lt.2 = Int.fdiv (c.2 - (toTk c o).wh.2) 2) ∧
    fitScale (400, 400) (1000, 500) = 2 / 5 ∧
    toTk (400, 400) (1000, 500) = fitExample := by
  refine ⟨fun c o => ⟨le_max_right _ _, le_max_right _ _, rfl, rfl, rfl, rfl, rfl, rfl⟩,
    ?_, ?_⟩
  · norm_num [fitScale, min_def]
  · have hs : fitScale (400, 400) (1000, 500) = 2 / 5 := by
      norm_num [fitScale, min_def]
    simp only [toTk, hs, fitExample]
    norm_num
    decide

/-- Python `np.round` of an integer-valued rational is that integer. -/
theorem npRound_intCast (a : ℤ) : npRound (a : ℚ) = (a : ℚ) := by
  unfold npRound npRoundZ
  rw [Int.floor_intCast, sub_self]
  norm_num

/-- C3 as stated is false: the forward conversions round to whole pixels, so
the CLIENT round-trip is not the identity on every point; at viewport 400×400
the point (1/1000, 1/1000) maps to client pixel (0, 0) and back to (0, 0). -/
theorem roundtrip_counterexample :
    getFromClientPos fitExample (getClientPosAt fitExample (1 / 1000, 1 / 1000)) ≠
      (1 / 1000, 1 / 1000) := by
  have h : getClientPosAt fitExample (1 / 1000, 1 / 1000) = (0, 0) := by
    norm_num [getClientPosAt, npRound2, npRound, npRoundZ, shiftscalePt, SS.bcast,
      fitExample]
  rw [h]
  norm_num [getFromClientPos, shiftscalePt, SS.bcast, fitExample, Prod.ext_iff]

/-- C3 (amended): the forward conversions round to pixels, so the
forward-then-inverse round-trips are the identity exactly on the points whose
pixel images are exact: with positive viewport and fitted sizes, if the
CLIENT-space coordinates `p * refsz` are integers then the CLIENT, CVS and
IMRATIO round-trips return `p`, and the ORG round-trip returns `p` when
additionally the mapped original-image coordinates are integers. -/
theorem roundtrip_identity (f : Fit) (p : ℚ × ℚ)
    (hr1 : 0 < f.refsz.1) (hr2 : 0 < f.refsz.2)
    (hw1 : 0 < f.wh.1) (hw2 : 0 < f.wh.2)
    (hx : ∃ a : ℤ, p.1 * (f.refsz.1 : ℚ) = (a : ℚ))
    (hy : ∃ b : ℤ, p.2 * (f.refsz.2 : ℚ) = (b : ℚ)) :
    getFromClientPos f (getClientPosAt f p) = p ∧
    getFromCvsPos f (getImCvsPosAt f p) = p ∧
    getFromImRatioPos f (getImRatioAt f p) = p ∧
    (0 < f.orgwh.1 → 0 < f.orgwh.2 →
      (∃ g : ℤ,
        (p.1 * (f.refsz.1 : ℚ) - (f.lt.1 : ℚ)) * ((f.orgwh.1 : ℚ) / (f.wh.1 : ℚ)) = (g : ℚ)) →
      (∃ g : ℤ,
        (p.2 * (f.refsz.2 : ℚ) - (f.lt.2 : ℚ)) * ((f.orgwh.2 : ℚ) / (f.wh.2 : ℚ)) = (g : ℚ)) →
      getFromImOrgPos f (getImOrgPosAt f p) = p) := by
  obtain ⟨a, ha⟩ := hx
  obtain ⟨b, hb⟩ := hy
  have hrz1 : ((f.refsz.1 : ℚ)) ≠ 0 := Int.cast_ne_zero.mpr hr1.ne'
  have hrz2 : ((f.refsz.2 : ℚ)) ≠ 0 := Int.cast_ne_zero.mpr hr2.ne'
  have hwz1 : ((f.wh.1 : ℚ)) ≠ 0 := Int.cast_ne_zero.mpr hw1.ne'
  have hwz2 : ((f.wh.2 : ℚ)) ≠ 0 := Int.cast_ne_zero.mpr hw2.ne'
  have hc : getClientPosAt f p = (p.1 * (f.refsz.1 : ℚ), p.2 * (f.refsz.2 : ℚ)) := by
    simp only [getClientPosAt, npRound2, shiftscalePt, SS.bcast, add_zero]
    rw [ha, hb, npRound_intCast, npRound_intCast, ← ha, ← hb]
  refine ⟨?_, ?_, ?_, ?_⟩
  · rw [hc]
    simp only [getFromClientPos, shiftscalePt, SS.bcast, add_zero]
    have e1 : p.1 * (f.refsz.1 : ℚ) * (1 / (f.refsz.1 : ℚ)) = p.1 := by field_simp
    have e2 : p.2 * (f.refsz.2 : ℚ) * (1 / (f.refsz.2 : ℚ)) = p.2 := by field_simp
    rw [e1, e2]
  · have hcvs : getImCvsPosAt f p =
        (p.1 * (f.refsz.1 : ℚ) - (f.lt.1 : ℚ), p.2 * (f.refsz.2 : ℚ) - (f.lt.2 : ℚ)) := by
      simp only [getImCvsPosAt, npRound2, shiftscalePt, SS.bcast, mul_one, hc]
      rw [ha, hb]
      rw [show (a : ℚ) + -(f.lt.1 : ℚ) = ((a - f.lt.1 : ℤ) : ℚ) by push_cast; ring]
      rw [show (b : ℚ) + -(f.lt.2 : ℚ) = ((b - f.lt.2 : ℤ) : ℚ) by push_cast; ring]
      rw [npRound_intCast, npRound_intCast]
      push_cast
      rw [← ha, ← hb]
    rw [hcvs]
    simp only [getFromCvsPos, shiftscalePt, SS.bcast]
    have e1 : (p.1 * (f.refsz.1 : ℚ) - (f.lt.1 : ℚ) + (f.lt.1 : ℚ)) * (1 / (f.refsz.1 : ℚ)) = p.1 := by
      field_simp
    have e2 : (p.2 * (f.refsz.2 : ℚ) - (f.lt.2 : ℚ) + (f.lt.2 : ℚ)) * (1 / (f.refsz.2 : ℚ)) = p.2 := by
      field_simp
    rw [e1, e2]
  · simp only [getImRatioAt, getFromImRatioPos, shiftscalePt, SS.bcast, hc]
    have e1 : ((p.1 * (f.refsz.1 : ℚ) + -(f.lt.1 : ℚ)) * (1 / (f.wh.1 : ℚ)) +
        (f.lt.1 : ℚ) / (f.wh.1 : ℚ)) * ((f.wh.1 : ℚ) / (f.refsz.1 : ℚ)) = p.1 := by
      field_simp
    have e2 : ((p.2 * (f.refsz.2 : ℚ) + -(f.lt.2 : ℚ)) * (1 / (f.wh.2 : ℚ)) +
        (f.lt.2 : ℚ) / (f.wh.2 : ℚ)) * ((f.wh.2 : ℚ) / (f.refsz.2 : ℚ)) = p.2 := by
      field_simp
    rw [e1, e2]
  · intro ho1 ho2 hgx hgy
    obtain ⟨g1, hg1⟩ := hgx
    obtain ⟨g2, hg2⟩ := hgy
    have hoz1 : ((f.orgwh.1 : ℚ)) ≠ 0 := Int.cast_ne_zero.mpr ho1.ne'
    have hoz2 : ((f.orgwh.2 : ℚ)) ≠ 0 := Int.cast_ne_zero.mpr ho2.ne'
    have horg : getImOrgPosAt f p = ((g1 : ℚ), (g2 : ℚ)) := by
      simp only [getImOrgPosAt, npRound2, shiftscalePt, SS.bcast, hc]
      rw [show (p.1 * (f.refsz.1 : ℚ) + -(f.lt.1 : ℚ)) * ((f.orgwh.1 : ℚ) / (f.wh.1 : ℚ)) =
        (g1 : ℚ) by rw [← hg1]; ring]
      rw [show (p.2 * (f.refsz.2 : ℚ) + -(f.lt.2 : ℚ)) * ((f.orgwh.2 : ℚ) / (f.wh.2 : ℚ)) =
        (g2 : ℚ) by rw [← hg2]; ring]
      rw [npRound_intCast, npRound_intCast]
    rw [horg]
    simp only [getFromImOrgPos, shiftscalePt, SS.bcast]
    have e1 : ((g1 : ℚ) + (f.lt.1 : ℚ) / (f.wh.1 : ℚ) * (f.orgwh.1 : ℚ)) *
        ((f.wh.1 : ℚ) / (f.orgwh.1 : ℚ) / (f.refsz.1 : ℚ)) = p.1 := by
      rw [← hg1]
      field_simp
      ring
    have e2 : ((g2 : ℚ) + (f.lt.2 : ℚ) / (f.wh.2 : ℚ) * (f.orgwh.2 : ℚ)) *
        ((f.wh.2 : ℚ) / (f.orgwh.2 : ℚ) / (f.refsz.2 : ℚ)) = p.2 := by
      rw [← hg2]
      field_simp
      ring
    rw [e1, e2]

/-- Witness for C3 (amended) at the 1000×500-in-400×400 fit and the point
(1/2, 3/8) — client pixel (200, 150), original-image pixel (500, 125): all
four round-trips return the point. -/
theorem roundtrip_identity_witness :
    getFromClientPos fitExample (getClientPosAt fitExample (1 / 2, 3 / 8)) = (1 / 2, 3 / 8) ∧
    getFromCvsPos fitExample (getImCvsPosAt fitExample (1 / 2, 3 / 8)) = (1 / 2, 3 / 8) ∧
    getFromImRatioPos fitExample (getImRatioAt fitExample (1 / 2, 3 / 8)) = (1 / 2, 3 / 8) ∧
    getFromImOrgPos fitExample (getImOrgPosAt fitExample (1 / 2, 3 / 8)) = (1 / 2, 3 / 8) := by
  have h := roundtrip_identity fitExample (1 / 2, 3 / 8)
    (by norm_num [fitExample]) (by norm_num [fitExample])
    (by norm_num [fitExample]) (by norm_num [fitExample])
    ⟨200, by norm_num [fitExample]⟩ ⟨150, by norm_num [fitExample]⟩
  exact ⟨h.1, h.2.1, h.2.2.1,
    h.2.2.2 (by norm_num [fitExample]) (by norm_num [fitExample])
      ⟨500, by norm_num [fitExample]⟩ ⟨125, by norm_num [fitExample]⟩⟩

end CanvasUI
